/-
Verification of the WebWhisper task-supervision core against its
natural-language specification.

Shallow embedding of:
  - `webwhisper/utils/whisper_utils.py` (progress parsing, segment parsing,
    the supervisor's post-exit result handling, and the progress-callback
    emission order of `run_whisper_process`);
  - `webwhisper/models/task.py` (`TaskStatus`, `TranscriptionTask` and its
    mutation methods);
  - `webwhisper/core/task_manager.py` (`TaskManager`: create/start/cancel/get,
    capacity cleanup, and the supervisor-completion handling of
    `_run_transcription`).

Numeric conventions: every timestamp the parser handles is an exact number of
milliseconds (`HH:MM:SS.mmm`), so float "seconds" values are embedded as exact
millisecond counts in `ℕ` (1.0 s ↦ 1000, 2.5 s ↦ 2500, the hardcoded 100.0 s
↦ 100000).  Machine timestamps (`time.time()`) are `ℕ` values supplied
explicitly by callers, and thread/process effects are explicit ghost data
(`launched` list, supervisor counters).
-/
import Mathlib

/-! ## Progress / segment parser (`whisper_utils.py`)

The code recognises lines by the regex
`\[(\d{2}:\d{2}:\d{2}\.\d{3}) --> (\d{2}:\d{2}:\d{2}\.\d{3})\]` (progress
path, line 185) and the same pattern followed by ` (.*)` (segment path,
line 275).  We embed the regex as an explicit character-list matcher and
`re.search` as a scan over all start positions, leftmost match first. -/

/-- One `HH:MM:SS.mmm` timestamp, as matched by the regex digit groups. -/
structure WhisperTimestamp where
  h : ℕ
  m : ℕ
  s : ℕ
  ms : ℕ
  deriving DecidableEq, Repr

/-- `HH:MM:SS.mmm → milliseconds`: the code computes the float seconds
`int(h)*3600 + int(m)*60 + int(s) + float(ms)/1000` (lines 193, 293, 297);
we embed that exact value scaled by 1000. -/
def WhisperTimestamp.toMs (t : WhisperTimestamp) : ℕ :=
  (t.h * 3600 + t.m * 60 + t.s) * 1000 + t.ms

/-- Numeric value of a decimal digit character. -/
def digitVal (c : Char) : ℕ := c.toNat - 48

/-- Match the bracketed timestamp pair
`[HH:MM:SS.mmm --> HH:MM:SS.mmm]` at the head of the character list,
returning both timestamps and the characters after `]`. -/
def matchBracketAt : List Char → Option (WhisperTimestamp × WhisperTimestamp × List Char)
  | '[' :: a1 :: a2 :: ':' :: b1 :: b2 :: ':' :: c1 :: c2 :: '.' :: d1 :: d2 :: d3 ::
    ' ' :: '-' :: '-' :: '>' :: ' ' ::
    e1 :: e2 :: ':' :: f1 :: f2 :: ':' :: g1 :: g2 :: '.' :: h1 :: h2 :: h3 ::
    ']' :: rest =>
      if (a1.isDigit && a2.isDigit && b1.isDigit && b2.isDigit &&
          c1.isDigit && c2.isDigit && d1.isDigit && d2.isDigit && d3.isDigit &&
          e1.isDigit && e2.isDigit && f1.isDigit && f2.isDigit &&
          g1.isDigit && g2.isDigit && h1.isDigit && h2.isDigit && h3.isDigit) then
        some (⟨10 * digitVal a1 + digitVal a2,
               10 * digitVal b1 + digitVal b2,
               10 * digitVal c1 + digitVal c2,
               100 * digitVal d1 + 10 * digitVal d2 + digitVal d3⟩,
              ⟨10 * digitVal e1 + digitVal e2,
               10 * digitVal f1 + digitVal f2,
               10 * digitVal g1 + digitVal g2,
               100 * digitVal h1 + 10 * digitVal h2 + digitVal h3⟩,
              rest)
      else none
  | _ => none

/-- `re.search` with the progress pattern (no text group, line 185): try the
bracket pattern at every position, leftmost match first. -/
def searchBracket : List Char → Option (WhisperTimestamp × WhisperTimestamp)
  | [] => none
  | c :: cs =>
    match matchBracketAt (c :: cs) with
    | some (t1, t2, _) => some (t1, t2)
    | none => searchBracket cs

/-- Match the full segment pattern `\[ts --> ts\] (.*)` at the head of the
character list: the bracket pair, a mandatory space, then the greedy text
group (rest of the line, since `.` does not cross the line split). -/
def matchSegmentAt (cs : List Char) : Option (WhisperTimestamp × WhisperTimestamp × List Char) :=
  match matchBracketAt cs with
  | some (t1, t2, ' ' :: text) => some (t1, t2, text)
  | _ => none

/-- `re.search` with the segment pattern (line 275): leftmost position where
the full pattern (including the space and text group) matches. -/
def searchSegment : List Char → Option (WhisperTimestamp × WhisperTimestamp × List Char)
  | [] => none
  | c :: cs =>
    match matchSegmentAt (c :: cs) with
    | some r => some r
    | none => searchSegment cs

/-- Python `str.strip()` on a character list: drop whitespace from both ends. -/
def stripChars (cs : List Char) : List Char :=
  ((cs.dropWhile Char.isWhitespace).reverse.dropWhile Char.isWhitespace).reverse

/-- Python `str.strip()`. -/
def pyStrip (s : String) : String := String.mk (stripChars s.toList)

/-- Python `str.split('\n')` on a character list: split at every newline,
keeping empty pieces. -/
def splitOnNewline : List Char → List (List Char)
  | [] => [[]]
  | '\n' :: rest => [] :: splitOnNewline rest
  | c :: rest =>
    match splitOnNewline rest with
    | [] => [[c]]
    | l :: ls => (c :: l) :: ls

/-- Python `str.split('\n')`. -/
def pySplitLines (s : String) : List String := (splitOnNewline s.toList).map String.mk

/-- One transcribed span `{start, end, text}`; `start`/`end` are the float
seconds of the source embedded as exact milliseconds. -/
structure Segment where
  start : ℕ
  «end» : ℕ
  text : String
  deriving DecidableEq, Repr

/-- Parse one output line into a segment (lines 281-306): strip the line,
search for the timestamp pattern, convert both timestamps to (milli)seconds
and strip the captured text.  (The `try/except` defaulting the times to `0.0`
cannot fire once the regex has matched, since the matched groups always split
into the expected components.) -/
def parseSegmentLine (line : String) : Option Segment :=
  match searchSegment (stripChars line.toList) with
  | some (t1, t2, text) => some ⟨t1.toMs, t2.toMs, pyStrip (String.mk text)⟩
  | none => none

/-- Segment extraction of `run_whisper_process` (lines 270-320): scan every
line of the joined, stripped output; if no line matches, fall back to a
single segment `{0.0, 100.0, raw text}` — the code hardcodes `"end": 100.0`
(100000 ms here) with the comment "假设音频长度为100秒" (assume the audio is
100 seconds). -/
def parseWhisperOutput (outputText : String) : List Segment :=
  let segs := (pySplitLines outputText).filterMap parseSegmentLine
  if segs.isEmpty then [⟨0, 100000, outputText⟩] else segs

/-- Space-joined transcript text accumulated over the matching lines
(lines 308-311), with the same fallback to the raw block (line 315). -/
def parseWhisperFullText (outputText : String) : String :=
  let texts := ((pySplitLines outputText).filterMap parseSegmentLine).map Segment.text
  if texts.isEmpty then outputText else String.intercalate " " texts

/-- Streaming progress derivation of the supervisor loop (lines 184-194):
strip the line, search for the bracket pattern; on a match the progress is
`min(int((start_seconds / 100.0) * 100), 95)` — a fixed assumed duration of
100 seconds, truncation, and a cap at 95.  In exact arithmetic
`int((t / 100.0) * 100) = ⌊t⌋` for the nonnegative seconds value `t`, which
over milliseconds is `toMs / 1000` (truncating division). -/
def loopLineProgress (line : String) : Option ℕ :=
  match searchBracket (stripChars line.toList) with
  | some (t1, _) => some (min (t1.toMs / 1000) 95)
  | none => none

/-- Modelled from the spec: the progress formula the specification requires,
`clamp(round(100 * start_of_current_segment / total_duration_seconds), 0, 100)`
(§4.4), over float seconds modelled as `ℚ`.  The source has no such formula
(and no `total_duration` parameter); this definition exists only to compare
the spec's words with `loopLineProgress`. -/
def specProgressFormula («start» totalDuration : ℚ) : ℤ :=
  max 0 (min 100 (round (100 * «start» / totalDuration)))

/-- Progress values actually delivered to the callback during the stdout read
loop (lines 179-205): each line is parsed; a derived value is delivered only
when the 0.5-second throttle allows it.  Wall-clock time is abstracted as a
boolean throttle oracle paired with each line. -/
def streamEmits : List (String × Bool) → List ℕ
  | [] => []
  | (line, ok) :: rest =>
    match loopLineProgress line with
    | some p => if ok then p :: streamEmits rest else streamEmits rest
    | none => streamEmits rest

/-- The full callback sequence of a successful (exit code 0, never cancelled)
run of `run_whisper_process`: the throttled streamed values, then the fixed
`90` ("处理转录结果...", line 268) and `100` ("转录成功完成", line 323)
milestones. -/
def deliveredOnSuccess (lines : List (String × Bool)) : List ℕ :=
  streamEmits lines ++ [90, 100]

/-! ## Task model (`models/task.py`) -/

/-- `TaskStatus` enumeration (task.py lines 12-18).  The terminal failure
value is named `ERROR` in the source (string value `"error"`). -/
inductive TaskStatus where
  | pending
  | running
  | completed
  | cancelled
  | error
  deriving DecidableEq, Repr

/-- One entry of a task's `progress_queue` (task.py lines 62-66). -/
structure ProgressUpdate where
  progress : ℕ
  message : String
  deriving DecidableEq, Repr

/-- The dictionary returned by `run_whisper_process` / `transcribe_audio`:
`{'text', 'segments', 'stderr', 'cancelled'}`. -/
structure WhisperResult where
  text : String
  segments : List Segment
  stderr : String
  cancelled : Bool
  deriving DecidableEq, Repr

/-- `TranscriptionTask` (task.py lines 21-47).  `time.time()` stamps are `ℕ`
values supplied by callers; the `queue.Queue` is its list of entries; the
`threading.Event` is its boolean flag. -/
structure TranscriptionTask where
  task_id : String
  file_path : String
  options : List (String × String)
  status : TaskStatus
  progress : ℕ
  message : String
  result : Option WhisperResult
  error : Option String
  created_at : ℕ
  updated_at : ℕ
  completed_at : Option ℕ
  progress_queue : List ProgressUpdate
  stop_event : Bool
  deriving DecidableEq, Repr

/-- `TranscriptionTask.__init__` (task.py lines 24-47). -/
def TranscriptionTask.init (task_id file_path : String) (options : List (String × String))
    (now : ℕ) : TranscriptionTask :=
  { task_id := task_id, file_path := file_path, options := options,
    status := .pending, progress := 0, message := "等待开始",
    result := none, error := none,
    created_at := now, updated_at := now, completed_at := none,
    progress_queue := [], stop_event := false }

/-- `update_progress` (task.py lines 49-66): set the fields and append to the
queue; `message or self.message` keeps the old message when none is given. -/
def TranscriptionTask.update_progress (t : TranscriptionTask) (progress : ℕ)
    (message : Option String) (now : ℕ) : TranscriptionTask :=
  { t with
    progress := progress
    message := message.getD t.message
    updated_at := now
    progress_queue := t.progress_queue ++ [⟨progress, message.getD t.message⟩] }

/-- `cancel` (task.py lines 68-73): flips the status to `CANCELLED`
immediately and raises the one-shot stop event. -/
def TranscriptionTask.cancel (t : TranscriptionTask) (now : ℕ) : TranscriptionTask :=
  { t with status := .cancelled, stop_event := true, message := "任务已取消", updated_at := now }

/-- `complete` (task.py lines 75-87). -/
def TranscriptionTask.complete (t : TranscriptionTask) (result : WhisperResult)
    (now : ℕ) : TranscriptionTask :=
  { t with
    status := .completed
    result := some result
    progress := 100
    message := "任务已完成"
    updated_at := now
    completed_at := some now }

/-- `fail` (task.py lines 89-99). -/
def TranscriptionTask.fail (t : TranscriptionTask) (error : String) (now : ℕ) : TranscriptionTask :=
  { t with
    status := .error
    error := some error
    message := s!"任务失败: {error}"
    updated_at := now }

/-- `start` (task.py lines 101-105).  Note it does not reset `stop_event`. -/
def TranscriptionTask.start (t : TranscriptionTask) (now : ℕ) : TranscriptionTask :=
  { t with status := .running, message := "任务运行中", updated_at := now }

/-! ## Task registry (`core/task_manager.py`)

`self.tasks` is an `OrderedDict`, embedded as an insertion-ordered
association list.  The Python code mutates looked-up task objects in place;
the embedding writes the updated task back at its key.  The ghost field
`launched` records every `threading.Thread(target=_run_transcription).start()`
call so that theorems can speak about supervisor launches. -/

/-- `OrderedDict.get` / `in`. -/
def lookupOD (tasks : List (String × TranscriptionTask)) (task_id : String) :
    Option TranscriptionTask :=
  (tasks.find? (fun p => p.1 == task_id)).map Prod.snd

/-- `OrderedDict.__setitem__`: replace in place if the key exists, else append. -/
def insertOD (tasks : List (String × TranscriptionTask)) (task_id : String)
    (task : TranscriptionTask) : List (String × TranscriptionTask) :=
  if tasks.any (fun p => p.1 == task_id) then
    tasks.map (fun p => if p.1 == task_id then (p.1, task) else p)
  else tasks ++ [(task_id, task)]

/-- `OrderedDict.__delitem__` for a present key. -/
def deleteOD (tasks : List (String × TranscriptionTask)) (task_id : String) :
    List (String × TranscriptionTask) :=
  tasks.filter (fun p => p.1 != task_id)

/-- The task registry: `TaskManager.__init__` (task_manager.py lines 20-29). -/
structure TaskManager where
  tasks : List (String × TranscriptionTask)
  max_tasks : ℕ
  launched : List String
  deriving DecidableEq, Repr

/-- Stable insertion step for `sorted(self.tasks.items(), key=created_at)`:
a new element goes after every already-placed element with key `≤` its own,
so elements processed in original order keep that order on equal keys. -/
def insByTime (p : String × TranscriptionTask) :
    List (String × TranscriptionTask) → List (String × TranscriptionTask)
  | [] => [p]
  | q :: qs => if q.2.created_at ≤ p.2.created_at then q :: insByTime p qs else p :: q :: qs

/-- Python's stable `sorted(tasks.items(), key=lambda x: x[1].created_at)`
(task_manager.py lines 238-241), as a left-to-right stable insertion sort. -/
def sortByTime (l : List (String × TranscriptionTask)) : List (String × TranscriptionTask) :=
  l.foldl (fun acc p => insByTime p acc) []

/-- `_clean_old_tasks` (task_manager.py lines 230-246): nothing to do while
the count is within `max_tasks`; otherwise sort by `created_at` and delete
the oldest `len - max_tasks` entries by key. -/
def TaskManager.clean_old_tasks (tm : TaskManager) : TaskManager :=
  if tm.tasks.length ≤ tm.max_tasks then tm
  else
    let tasks_by_time := sortByTime tm.tasks
    let to_delete := (tasks_by_time.take (tasks_by_time.length - tm.max_tasks)).map Prod.fst
    { tm with tasks := to_delete.foldl deleteOD tm.tasks }

/-- `create_task` (task_manager.py lines 31-60).  `file_exists` is the value
of `os.path.exists(file_path)`.  On a missing file the task is created,
marked failed with error "文件不存在", stored, and the method returns
*without* running `_clean_old_tasks`; on the normal path the task is stored
and then the capacity cleanup runs. -/
def TaskManager.create_task (tm : TaskManager) (file_exists : Bool)
    (task_id file_path : String) (options : List (String × String)) (now : ℕ) :
    TaskManager × TranscriptionTask :=
  if !file_exists then
    let task := (TranscriptionTask.init task_id file_path options now).fail "文件不存在" now
    ({ tm with tasks := insertOD tm.tasks task_id task }, task)
  else
    let task := TranscriptionTask.init task_id file_path options now
    let tm' := { tm with tasks := insertOD tm.tasks task_id task }
    (tm'.clean_old_tasks, task)

/-- `start_task` (task_manager.py lines 62-95): failure when the id is
unknown or the status is `RUNNING` or `COMPLETED` (and only then); otherwise
mark the task running and launch the supervisor thread (recorded in
`launched`). -/
def TaskManager.start_task (tm : TaskManager) (task_id : String) (now : ℕ) :
    Bool × TaskManager :=
  match lookupOD tm.tasks task_id with
  | none => (false, tm)
  | some task =>
    if task.status = .running ∨ task.status = .completed then (false, tm)
    else
      (true,
       { tm with
         tasks := insertOD tm.tasks task_id (task.start now)
         launched := tm.launched ++ [task_id] })

/-- `cancel_task` (task_manager.py lines 158-181): failure when the id is
unknown or the status is not `RUNNING`; otherwise `task.cancel()` runs, which
both raises the stop event and flips the status to `CANCELLED` at once. -/
def TaskManager.cancel_task (tm : TaskManager) (task_id : String) (now : ℕ) :
    Bool × TaskManager :=
  match lookupOD tm.tasks task_id with
  | none => (false, tm)
  | some task =>
    if task.status = .running then
      (true, { tm with tasks := insertOD tm.tasks task_id (task.cancel now) })
    else (false, tm)

/-- `get_task` (task_manager.py lines 183-194). -/
def TaskManager.get_task (tm : TaskManager) (task_id : String) : Option TranscriptionTask :=
  lookupOD tm.tasks task_id

/-! ## Supervisor outcome handling

`_run_transcription` (task_manager.py lines 127-141) inspects the task and
the result dictionary after `transcribe_audio` returns, and
`run_whisper_process` (whisper_utils.py lines 207-330) builds that result
after the child process has exited. -/

/-- The status update `_run_transcription` performs once the supervisor's
`transcribe_audio` call returns (lines 133-141): a set stop event wins and
sets `CANCELLED` directly; otherwise a `cancelled` result marks the task
failed with the result text; otherwise the task completes. -/
def finalizeTask (task : TranscriptionTask) (result : WhisperResult) (now : ℕ) :
    TranscriptionTask :=
  if task.stop_event then { task with status := .cancelled }
  else if result.cancelled then task.fail result.text now
  else task.complete result now

/-- Result construction of `run_whisper_process` for a process that had
already exited before the read loop observed the stop event (so the loop's
`cancelled` flag is false): lines 207-330.  A non-zero exit code yields the
failure dictionary (line 219); otherwise the stop event is re-checked at
line 255 (`stopAtFinalCheck` is its value at that moment) and a set event
yields the cancelled dictionary even though the process finished on its own;
only then is the output parsed into the success dictionary. -/
def postExitResult (stdoutJoined stderrText : String) (exitCode : ℤ)
    (stopAtFinalCheck : Bool) : WhisperResult :=
  if exitCode ≠ 0 then
    { text := s!"转录失败: 进程退出代码 {exitCode}\n{stderrText}",
      segments := [], stderr := stderrText, cancelled := true }
  else if stopAtFinalCheck then
    { text := "转录已被用户取消。", segments := [], stderr := stderrText, cancelled := true }
  else
    let output_text := pyStrip stdoutJoined
    { text := output_text, segments := parseWhisperOutput output_text,
      stderr := stderrText, cancelled := false }

/-! ## Per-task lifecycle machine

The registry lock serializes every status transition of one task:
`start_task`, `cancel_task`, and the post-`transcribe_audio` section of
`_run_transcription` each run under `self.lock`.  The machine below replays
exactly those three critical sections against a single task, together with
the count of supervisor threads still due to run their completion section. -/

/-- A task plus the number of launched supervisor threads that have not yet
executed their completion section. -/
structure SupervisedTask where
  task : TranscriptionTask
  active_supervisors : ℕ
  deriving DecidableEq, Repr

/-- The serialized registry operations touching one task. -/
inductive TaskOp where
  | startOp (now : ℕ)
  | cancelOp (now : ℕ)
  | finishOp (result : WhisperResult) (now : ℕ)
  deriving DecidableEq, Repr

/-- One critical section: `start_task`'s check-and-flip, `cancel_task`'s
check-and-cancel, or a supervisor's completion handling (`finishOp` is a
no-op when no supervisor is active, since `_run_transcription` runs once per
successful `start_task`). -/
def supStep (s : SupervisedTask) : TaskOp → SupervisedTask
  | .startOp now =>
    if s.task.status = .running ∨ s.task.status = .completed then s
    else ⟨s.task.start now, s.active_supervisors + 1⟩
  | .cancelOp now =>
    if s.task.status = .running then ⟨s.task.cancel now, s.active_supervisors⟩ else s
  | .finishOp result now =>
    if s.active_supervisors = 0 then s
    else ⟨finalizeTask s.task result now, s.active_supervisors - 1⟩

/-- Run a sequence of serialized operations. -/
def runOps (s : SupervisedTask) (ops : List TaskOp) : SupervisedTask :=
  ops.foldl supStep s

/-- State of a freshly created (existing-file) task: `PENDING`, no
supervisor. -/
def initSupervised (task_id file_path : String) (options : List (String × String))
    (now : ℕ) : SupervisedTask :=
  ⟨TranscriptionTask.init task_id file_path options now, 0⟩

/-- Lifecycle invariant of the serialized machine: while the stop event has
never been raised, exactly one supervisor is pending iff the task is
`RUNNING`; and once the stop event is raised the task can never be
`COMPLETED` (a set stop event makes `finalizeTask` choose `CANCELLED`, and
`start` never clears the event). -/
def SupInv (s : SupervisedTask) : Prop :=
  (s.task.stop_event = false →
    s.active_supervisors = if s.task.status = .running then 1 else 0) ∧
  (s.task.stop_event = true → s.task.status ≠ .completed)

/-! ## Concrete demonstration objects -/

/-- `transcribe_audio` (whisper_utils.py lines 333-400) reaches
`subprocess.Popen` (line 128) only when the audio-conversion pre-step
succeeded and the model file exists: `convert_audio_to_wav` raises on an
unreadable/missing input (lines 41-49), which `transcribe_audio` catches
before ever building the whisper command.  `conversionOk` is whether
`AudioSegment.from_file` succeeded — necessarily false when the input file
does not exist. -/
def transcribeSpawnsProcess (conversionOk modelExists : Bool) : Bool :=
  conversionOk && modelExists

/-- A task created at time 0 and started at time 1 (status `RUNNING`). -/
def demoRunningTask : TranscriptionTask :=
  (TranscriptionTask.init "t1" "audio.wav" [] 0).start 1

/-- The running demo task after `cancel_task` at time 2 (status `CANCELLED`,
stop event raised). -/
def demoCancelledTask : TranscriptionTask := demoRunningTask.cancel 2

/-- A registry holding only the cancelled demo task. -/
def demoCancelledTM : TaskManager := ⟨[("t1", demoCancelledTask)], 100, []⟩

/-- A registry holding only the running demo task. -/
def demoRunningTM : TaskManager := ⟨[("t1", demoRunningTask)], 100, []⟩

/-- A successful transcription result dictionary. -/
def demoOkResult : WhisperResult := ⟨"hello", [], "", false⟩

/-- Tasks created at times 1 and 2 for the capacity demonstrations. -/
def demoTaskA : TranscriptionTask := TranscriptionTask.init "a" "a.wav" [] 1

/-- Second capacity-demo task, created later than `demoTaskA`. -/
def demoTaskB : TranscriptionTask := TranscriptionTask.init "b" "b.wav" [] 2

/-- A registry at capacity: `max_tasks = 2` with two stored tasks. -/
def demoFullTM : TaskManager := ⟨[("a", demoTaskA), ("b", demoTaskB)], 2, []⟩

/-! ## Helper lemmas about the ordered-dictionary embedding -/

theorem lookupOD_append_of_all_ne (tasks l : List (String × TranscriptionTask))
    (task_id : String) (h : ∀ p ∈ tasks, (p.1 == task_id) = false) :
    lookupOD (tasks ++ l) task_id = lookupOD l task_id := by
  induction tasks with
  | nil => rfl
  | cons q qs ih =>
    have hq := h q (List.mem_cons_self q qs)
    simp only [List.cons_append, lookupOD, List.find?_cons, hq]
    exact ih fun p hp => h p (List.mem_cons_of_mem q hp)

theorem insertOD_of_fresh (tasks : List (String × TranscriptionTask))
    (task_id : String) (task : TranscriptionTask)
    (h : tasks.any (fun p => p.1 == task_id) = false) :
    insertOD tasks task_id task = tasks ++ [(task_id, task)] := by
  simp only [insertOD, h, Bool.false_eq_true, if_false]

theorem any_eq_false_of_lookup_none (tasks : List (String × TranscriptionTask))
    (task_id : String) (h : lookupOD tasks task_id = none) :
    tasks.any (fun p => p.1 == task_id) = false := by
  simp only [lookupOD, Option.map_eq_none', List.find?_eq_none] at h
  simp only [List.any_eq_false]
  intro p hp
  simpa using h p hp

theorem any_eq_true_of_lookup_some (tasks : List (String × TranscriptionTask))
    (task_id : String) (t : TranscriptionTask) (h : lookupOD tasks task_id = some t) :
    tasks.any (fun p => p.1 == task_id) = true := by
  by_contra hc
  have hf : tasks.any (fun p => p.1 == task_id) = false := Bool.eq_false_iff.mpr hc
  have hnone : lookupOD tasks task_id = none := by
    simp only [lookupOD, Option.map_eq_none', List.find?_eq_none]
    intro p hp
    have := (List.any_eq_false.mp hf) p hp
    simpa using this
  rw [hnone] at h
  exact Option.noConfusion h

theorem lookupOD_update_self (tasks : List (String × TranscriptionTask))
    (task_id : String) (task : TranscriptionTask)
    (h : tasks.any (fun p => p.1 == task_id) = true) :
    lookupOD (tasks.map fun p => if p.1 == task_id then (p.1, task) else p) task_id
      = some task := by
  induction tasks with
  | nil => simp at h
  | cons q qs ih =>
    by_cases hq : (q.1 == task_id) = true
    · have hid : q.1 = task_id := by simpa using hq
      simp [lookupOD, hq, hid]
    · have hq' : (q.1 == task_id) = false := by simpa using hq
      simp only [List.any_cons, hq', Bool.false_or] at h
      simp only [List.map_cons, hq', Bool.false_eq_true, if_false, lookupOD,
        List.find?_cons, hq']
      exact ih h

theorem lookupOD_insertOD_self (tasks : List (String × TranscriptionTask))
    (task_id : String) (task : TranscriptionTask) :
    lookupOD (insertOD tasks task_id task) task_id = some task := by
  unfold insertOD
  by_cases hany : tasks.any (fun p => p.1 == task_id) = true
  · simpa only [hany, if_true] using lookupOD_update_self tasks task_id task hany
  · have hany' : tasks.any (fun p => p.1 == task_id) = false := Bool.eq_false_iff.mpr hany
    simp only [hany', Bool.false_eq_true, if_false]
    have hall : ∀ p ∈ tasks, (p.1 == task_id) = false := by
      intro p hp
      have := (List.any_eq_false.mp hany') p hp
      simpa using this
    rw [lookupOD_append_of_all_ne tasks [(task_id, task)] task_id hall]
    simp [lookupOD]

/-! ## Helper lemmas: stable sort by `created_at` -/

theorem insByTime_perm (p : String × TranscriptionTask)
    (l : List (String × TranscriptionTask)) : List.Perm (insByTime p l) (p :: l) := by
  induction l with
  | nil => exact List.Perm.refl _
  | cons q qs ih =>
    by_cases h : q.2.created_at ≤ p.2.created_at
    · simp only [insByTime, if_pos h]
      exact (ih.cons q).trans (List.Perm.swap p q qs)
    · simp only [insByTime, if_neg h]
      exact List.Perm.refl _

theorem insByTime_pairwise (p : String × TranscriptionTask)
    (l : List (String × TranscriptionTask))
    (h : l.Pairwise (fun a b => a.2.created_at ≤ b.2.created_at)) :
    (insByTime p l).Pairwise (fun a b => a.2.created_at ≤ b.2.created_at) := by
  induction l with
  | nil => simp [insByTime]
  | cons q qs ih =>
    rcases List.pairwise_cons.mp h with ⟨hq, hqs⟩
    by_cases hle : q.2.created_at ≤ p.2.created_at
    · simp only [insByTime, if_pos hle]
      refine List.pairwise_cons.mpr ⟨?_, ih hqs⟩
      intro y hy
      have hy' : y = p ∨ y ∈ qs := by
        have := (insByTime_perm p qs).mem_iff.mp hy
        simpa using this
      rcases hy' with rfl | hyq
      · exact hle
      · exact hq y hyq
    · simp only [insByTime, if_neg hle]
      have hpq : p.2.created_at ≤ q.2.created_at := le_of_not_le hle
      refine List.pairwise_cons.mpr ⟨?_, h⟩
      intro y hy
      rcases List.mem_cons.mp hy with rfl | hyq
      · exact hpq
      · exact hpq.trans (hq y hyq)

theorem foldl_insByTime_perm (l acc : List (String × TranscriptionTask)) :
    List.Perm (l.foldl (fun a q => insByTime q a) acc) (acc ++ l) := by
  induction l generalizing acc with
  | nil => simp
  | cons q qs ih =>
    simp only [List.foldl_cons]
    have h1 := ih (insByTime q acc)
    have h2 := (insByTime_perm q acc).append_right qs
    have h3 : List.Perm ((q :: acc) ++ qs) (acc ++ q :: qs) := by
      simpa using (@List.perm_middle _ q acc qs).symm
    exact (h1.trans h2).trans h3

theorem foldl_insByTime_pairwise (l acc : List (String × TranscriptionTask))
    (h : acc.Pairwise (fun a b => a.2.created_at ≤ b.2.created_at)) :
    (l.foldl (fun a q => insByTime q a) acc).Pairwise
      (fun a b => a.2.created_at ≤ b.2.created_at) := by
  induction l generalizing acc with
  | nil => simpa using h
  | cons q qs ih =>
    simp only [List.foldl_cons]
    exact ih (insByTime q acc) (insByTime_pairwise q acc h)

theorem sortByTime_perm (l : List (String × TranscriptionTask)) :
    List.Perm (sortByTime l) l := by
  simpa using foldl_insByTime_perm l []

theorem sortByTime_pairwise (l : List (String × TranscriptionTask)) :
    (sortByTime l).Pairwise (fun a b => a.2.created_at ≤ b.2.created_at) :=
  foldl_insByTime_pairwise l [] (by simp)

/-! ## Helper lemmas: the lifecycle machine -/

theorem supInv_step (s : SupervisedTask) (op : TaskOp) (h : SupInv s) :
    SupInv (supStep s op) := by
  obtain ⟨h1, h2⟩ := h
  cases op with
  | startOp now =>
    by_cases hc : s.task.status = .running ∨ s.task.status = .completed
    · simpa only [supStep, if_pos hc] using ⟨h1, h2⟩
    · push_neg at hc
      simp only [supStep, if_neg (not_or.mpr hc)]
      constructor
      · intro hstop
        have ha := h1 (by simpa [TranscriptionTask.start] using hstop)
        rw [if_neg hc.1] at ha
        simp [TranscriptionTask.start, ha]
      · intro _
        simp [TranscriptionTask.start]
  | cancelOp now =>
    by_cases hc : s.task.status = .running
    · simp only [supStep, if_pos hc]
      constructor
      · intro hstop
        simp [TranscriptionTask.cancel] at hstop
      · intro _
        simp [TranscriptionTask.cancel]
    · simpa only [supStep, if_neg hc] using ⟨h1, h2⟩
  | finishOp res now =>
    by_cases ha : s.active_supervisors = 0
    · simpa only [supStep, if_pos ha] using ⟨h1, h2⟩
    · simp only [supStep, if_neg ha]
      cases hstop : s.task.stop_event
      · have hsup := h1 hstop
        have hrun : s.task.status = .running := by
          by_contra hr
          rw [if_neg hr] at hsup
          exact ha hsup
        rw [if_pos hrun] at hsup
        constructor
        · intro _
          by_cases hres : res.cancelled = true
          · simp [finalizeTask, hstop, hres, TranscriptionTask.fail, hsup]
          · have hres' : res.cancelled = false := Bool.eq_false_iff.mpr hres
            simp [finalizeTask, hstop, hres', TranscriptionTask.complete, hsup]
        · intro hstop'
          by_cases hres : res.cancelled = true
          · simp [finalizeTask, hstop, hres, TranscriptionTask.fail] at hstop' ⊢
          · have hres' : res.cancelled = false := Bool.eq_false_iff.mpr hres
            simp [finalizeTask, hstop, hres', TranscriptionTask.complete] at hstop'
      · constructor
        · intro hstop'
          simp [finalizeTask, hstop] at hstop'
        · intro _
          simp [finalizeTask, hstop]

theorem supInv_foldl (ops : List TaskOp) :
    ∀ s, SupInv s → SupInv (ops.foldl supStep s) := by
  induction ops with
  | nil => intro s h; simpa using h
  | cons op ops ih =>
    intro s h
    simp only [List.foldl_cons]
    exact ih (supStep s op) (supInv_step s op h)

theorem supInv_run (s : SupervisedTask) (ops : List TaskOp) (h : SupInv s) :
    SupInv (runOps s ops) :=
  supInv_foldl ops s h

theorem supStep_completed_eq (s : SupervisedTask) (op : TaskOp) (hInv : SupInv s)
    (hc : s.task.status = .completed) : supStep s op = s := by
  obtain ⟨h1, h2⟩ := hInv
  have hstop : s.task.stop_event = false := by
    cases hse : s.task.stop_event
    · rfl
    · exact absurd hc (h2 hse)
  have ha : s.active_supervisors = 0 := by
    have := h1 hstop
    rw [hc] at this
    simpa using this
  cases op with
  | startOp now => simp [supStep, hc]
  | cancelOp now => simp [supStep, hc]
  | finishOp res now => simp [supStep, ha]

theorem runOps_completed_eq (s : SupervisedTask) (ops : List TaskOp) (hInv : SupInv s)
    (hc : s.task.status = .completed) : runOps s ops = s := by
  induction ops with
  | nil => rfl
  | cons op ops ih =>
    simp only [runOps, List.foldl_cons]
    rw [supStep_completed_eq s op hInv hc]
    exact ih

theorem supInv_initSupervised (task_id file_path : String)
    (options : List (String × String)) (now : ℕ) :
    SupInv (initSupervised task_id file_path options now) := by
  constructor
  · intro _
    simp [initSupervised, TranscriptionTask.init]
  · intro hstop
    simp [initSupervised, TranscriptionTask.init] at hstop

/-! ## Helper lemma: streamed values are among the parsed values -/

theorem streamEmits_sublist (lines : List (String × Bool)) :
    List.Sublist (streamEmits lines) ((lines.map Prod.fst).filterMap loopLineProgress) := by
  induction lines with
  | nil => simp [streamEmits]
  | cons lb rest ih =>
    obtain ⟨line, ok⟩ := lb
    simp only [streamEmits, List.map_cons, List.filterMap_cons]
    cases hp : loopLineProgress line with
    | none => simpa using ih
    | some p =>
      cases ok
      · simpa using ih.cons p
      · simpa using ih.cons₂ p

/-! ## Claims -/

/-- Claim C1: the spec requires the streamed progress percentage to be
`clamp(round(100 * start / total_duration), 0, 100)` with the true trimmed
duration supplied as a parameter; the code instead computes
`min(int((start / 100.0) * 100), 95)` against a fixed assumed duration of
100 seconds and takes no duration parameter.  On the spec's own example line
(start 1.0 s, total duration 4.0 s) the code reports 1 where the claim
demands 25. -/
theorem C1_progress_formula_divergence :
    loopLineProgress "[00:00:01.000 --> 00:00:02.500] hello" = some 1 ∧
    specProgressFormula 1 4 = 25 ∧ (1 : ℤ) ≠ 25 := by
  refine ⟨by decide, ?_, by decide⟩
  unfold specProgressFormula
  norm_num [round_eq]

/-- Claim C4 (counterexample): for a block with no timestamped line the code
emits the single fallback segment with `end = 100.0` s (100000 ms) — a
hardcoded assumed duration — not the supplied total duration (10.0 s =
10000 ms in the spec's example). -/
theorem C4_fallback_duration_cex :
    parseWhisperOutput "no timestamps here" = [⟨0, 100000, "no timestamps here"⟩] ∧
    (100000 : ℕ) ≠ 10000 := ⟨by decide, by decide⟩

/-- Claim C4 (amended): for every output block with zero matching timestamp
lines, the parsed result is exactly one segment spanning `0.0` to the
hardcoded `100.0` seconds (not the true input duration, which the parser
never receives), carrying the raw block text verbatim. -/
theorem C4_fallback_whole_block (output : String)
    (h : (pySplitLines output).filterMap parseSegmentLine = []) :
    parseWhisperOutput output = [⟨0, 100000, output⟩] := by
  simp [parseWhisperOutput, h]

/-- Witness for C4: the amended fallback applied to the spec's example
block. -/
theorem C4_fallback_whole_block_witness :
    parseWhisperOutput "no timestamps here" = [⟨0, 100000, "no timestamps here"⟩] :=
  C4_fallback_whole_block "no timestamps here" (by decide)

/-- Claim C8 (counterexample): the delivered progress sequence of a
successful run is not always non-decreasing: a streamed line at 95 s yields
progress 95 (the streaming cap), after which the unconditional post-loop
milestones 90 and 100 are delivered, so the callback sees 95, 90, 100. -/
theorem C8_progress_monotone_cex :
    ¬ List.Sorted (· ≤ ·)
      (deliveredOnSuccess [("[00:01:35.000 --> 00:01:40.000] x", true)]) := by
  decide

/-- Claim C8 (amended): over a successful run, the delivered values are the
throttle-filtered parsed values in parser order followed by the 90 and 100
milestones; the whole sequence is non-decreasing provided the parsed
per-line values are non-decreasing and none of them exceeds 90 (equivalently
no segment starts at 91 s or later — otherwise the fixed 90 milestone
undercuts a streamed value, as the counterexample shows). -/
theorem C8_progress_monotone (lines : List (String × Bool))
    (hmono : List.Pairwise (· ≤ ·) ((lines.map Prod.fst).filterMap loopLineProgress))
    (hcap : ∀ p ∈ (lines.map Prod.fst).filterMap loopLineProgress, p ≤ 90) :
    List.Sorted (· ≤ ·) (deliveredOnSuccess lines) := by
  show List.Pairwise (· ≤ ·) (streamEmits lines ++ [90, 100])
  refine List.pairwise_append.mpr ⟨?_, ?_, ?_⟩
  · exact List.Pairwise.sublist (streamEmits_sublist lines) hmono
  · simp
  · intro a ha b hb
    have haf : a ∈ (lines.map Prod.fst).filterMap loopLineProgress :=
      (streamEmits_sublist lines).subset ha
    have h90 := hcap a haf
    have hb' : b = 90 ∨ b = 100 := by simpa using hb
    rcases hb' with rfl | rfl
    · exact h90
    · exact h90.trans (by norm_num)

/-- Witness for C8: the spec example's two lines (values 1 and 2) delivered
unthrottled give the non-decreasing sequence 1, 2, 90, 100. -/
theorem C8_progress_monotone_witness :
    List.Sorted (· ≤ ·)
      (deliveredOnSuccess
        [("[00:00:01.000 --> 00:00:02.500] hello", true),
         ("[00:00:02.500 --> 00:00:04.000] world", true)]) :=
  C8_progress_monotone _ (by decide) (by decide)

/-- Claim C2 (counterexample): `start_task` blocks only `RUNNING` and
`COMPLETED`; a `CANCELLED` task is started again successfully, contradicting
the claim that Cancelled/Failed tasks also make `StartTask` a failing
no-op. -/
theorem C2_start_cancelled_cex :
    demoCancelledTask.status = .cancelled ∧
    (demoCancelledTM.start_task "t1" 3).1 = true ∧
    ((demoCancelledTM.start_task "t1" 3).2.get_task "t1").map TranscriptionTask.status
      = some .running := ⟨by decide, by decide, by decide⟩

/-- Claim C2 (amended): `StartTask(id)` fails and leaves the registry
unchanged exactly when the task does not exist or its status is `Running` or
`Completed`; for every other status (`Pending`, but also `Cancelled` and
`Failed`) it flips the task to `Running`, records the supervisor launch, and
returns success. -/
theorem C2_start_task_spec (tm : TaskManager) (task_id : String) (now : ℕ) :
    (lookupOD tm.tasks task_id = none → tm.start_task task_id now = (false, tm)) ∧
    (∀ t, lookupOD tm.tasks task_id = some t →
      (t.status = .running ∨ t.status = .completed) →
      tm.start_task task_id now = (false, tm)) ∧
    (∀ t, lookupOD tm.tasks task_id = some t →
      t.status ≠ .running → t.status ≠ .completed →
      (tm.start_task task_id now).1 = true ∧
      (tm.start_task task_id now).2.get_task task_id = some (t.start now) ∧
      (tm.start_task task_id now).2.launched = tm.launched ++ [task_id]) := by
  refine ⟨?_, ?_, ?_⟩
  · intro h
    simp [TaskManager.start_task, h]
  · intro t ht hst
    simp [TaskManager.start_task, ht, hst]
  · intro t ht h1 h2
    have hcond : ¬(t.status = .running ∨ t.status = .completed) := by
      rintro (h | h)
      · exact h1 h
      · exact h2 h
    simp only [TaskManager.start_task, ht, if_neg hcond, TaskManager.get_task]
    refine ⟨by simp, ?_, by simp⟩
    exact lookupOD_insertOD_self tm.tasks task_id (t.start now)

/-- Witness for C2: starting the cancelled demo task succeeds and re-runs
it. -/
theorem C2_start_task_spec_witness :
    (demoCancelledTM.start_task "t1" 3).1 = true ∧
    (demoCancelledTM.start_task "t1" 3).2.get_task "t1"
      = some (demoCancelledTask.start 3) ∧
    (demoCancelledTM.start_task "t1" 3).2.launched = demoCancelledTM.launched ++ ["t1"] :=
  (C2_start_task_spec demoCancelledTM "t1" 3).2.2 demoCancelledTask
    (by decide) (by decide) (by decide)

/-- Claim C7 (counterexample): immediately after a successful
`cancel_task` the task's status is already `CANCELLED` — `task.cancel()`
flips the status itself — contradicting the claim that `CancelTask` only
raises the signal and the status flips only later when the supervisor
observes it. -/
theorem C7_cancel_immediate_cex :
    (demoRunningTM.cancel_task "t1" 2).1 = true ∧
    ((demoRunningTM.cancel_task "t1" 2).2.get_task "t1").map TranscriptionTask.status
      = some .cancelled := ⟨by decide, by decide⟩

/-- Claim C7 (amended): `CancelTask(id)` fails without modification unless
the task exists with status `Running`; on success it returns immediately,
having raised the one-shot stop event *and* already flipped the status to
`Cancelled` itself (the supervisor later merely re-confirms `Cancelled`). -/
theorem C7_cancel_task_spec (tm : TaskManager) (task_id : String) (now : ℕ) :
    (lookupOD tm.tasks task_id = none → tm.cancel_task task_id now = (false, tm)) ∧
    (∀ t, lookupOD tm.tasks task_id = some t → t.status ≠ .running →
      tm.cancel_task task_id now = (false, tm)) ∧
    (∀ t, lookupOD tm.tasks task_id = some t → t.status = .running →
      (tm.cancel_task task_id now).1 = true ∧
      (tm.cancel_task task_id now).2.get_task task_id = some (t.cancel now) ∧
      (t.cancel now).status = .cancelled ∧ (t.cancel now).stop_event = true) := by
  refine ⟨?_, ?_, ?_⟩
  · intro h
    simp [TaskManager.cancel_task, h]
  · intro t ht hst
    simp [TaskManager.cancel_task, ht, hst]
  · intro t ht hst
    simp only [TaskManager.cancel_task, ht, if_pos hst, TaskManager.get_task]
    refine ⟨by simp, ?_, by simp [TranscriptionTask.cancel], by simp [TranscriptionTask.cancel]⟩
    exact lookupOD_insertOD_self tm.tasks task_id (t.cancel now)

/-- Witness for C7: cancelling the running demo task succeeds and the task
is `Cancelled` with the stop event raised at once. -/
theorem C7_cancel_task_spec_witness :
    (demoRunningTM.cancel_task "t1" 2).1 = true ∧
    (demoRunningTM.cancel_task "t1" 2).2.get_task "t1"
      = some (demoRunningTask.cancel 2) ∧
    (demoRunningTask.cancel 2).status = .cancelled ∧
    (demoRunningTask.cancel 2).stop_event = true :=
  (C7_cancel_task_spec demoRunningTM "t1" 2).2.2 demoRunningTask (by decide) (by decide)

/-- Claim C6: `create_task` on a missing input file immediately stores a task
whose status is the terminal failure state with the explanatory error
"文件不存在", launches no supervisor thread, and (because the conversion
pre-step fails on a missing file) the whisper process can never be spawned
for it. -/
theorem C6_create_missing_file (tm : TaskManager) (task_id file_path : String)
    (options : List (String × String)) (now : ℕ) :
    (tm.create_task false task_id file_path options now).2.status = .error ∧
    (tm.create_task false task_id file_path options now).2.error = some "文件不存在" ∧
    (tm.create_task false task_id file_path options now).1.get_task task_id
      = some (tm.create_task false task_id file_path options now).2 ∧
    (tm.create_task false task_id file_path options now).1.launched = tm.launched ∧
    (∀ modelExists, transcribeSpawnsProcess false modelExists = false) := by
  refine ⟨rfl, rfl, ?_, rfl, fun _ => rfl⟩
  simp only [TaskManager.create_task, Bool.not_false, if_pos]
  exact lookupOD_insertOD_self tm.tasks task_id _

/-- Claim C10: a failed creation (missing input path) stores the `Failed`
task and returns before the capacity cleanup, so with a registry already at
or above `max_tasks` the stored count strictly exceeds `max_tasks` — the
capacity bound is enforced only on the successful-creation path. -/
theorem C10_failed_create_bypasses_capacity (tm : TaskManager)
    (task_id file_path : String) (options : List (String × String)) (now : ℕ)
    (hfresh : lookupOD tm.tasks task_id = none)
    (hfull : tm.max_tasks ≤ tm.tasks.length) :
    (tm.create_task false task_id file_path options now).1.tasks.length
      = tm.tasks.length + 1 ∧
    tm.max_tasks < (tm.create_task false task_id file_path options now).1.tasks.length := by
  have hins := insertOD_of_fresh tm.tasks task_id
    ((TranscriptionTask.init task_id file_path options now).fail "文件不存在" now)
    (any_eq_false_of_lookup_none _ _ hfresh)
  constructor
  · simp [TaskManager.create_task, hins]
  · simp only [TaskManager.create_task, Bool.not_false, if_pos, hins]
    simp only [List.length_append, List.length_cons, List.length_nil]
    omega

/-- Witness for C10: creating a third, missing-file task in the full
two-task registry leaves three stored tasks, above the capacity of two. -/
theorem C10_failed_create_bypasses_capacity_witness :
    (demoFullTM.create_task false "c" "c.wav" [] 3).1.tasks.length
      = demoFullTM.tasks.length + 1 ∧
    demoFullTM.max_tasks < (demoFullTM.create_task false "c" "c.wav" [] 3).1.tasks.length :=
  C10_failed_create_bypasses_capacity demoFullTM "c" "c.wav" [] 3 (by decide) (by decide)

/-- Claim C5 (counterexample): a cancellation raised after the process has
already exited with code 0 but before the supervisor's post-exit stop-event
check still yields final status `Cancelled`, not `Completed` as the claim
states: `run_whisper_process` re-checks the stop event at line 255 and
`_run_transcription` checks it again before writing the outcome. -/
theorem C5_cancel_after_exit_cex :
    (finalizeTask demoCancelledTask (postExitResult "out" "" 0 true) 3).status
      = .cancelled ∧
    TaskStatus.cancelled ≠ TaskStatus.completed := ⟨by decide, by decide⟩

/-- Claim C5 (amended): for a process that exited with code 0 before the read
loop observed anything, the final status is decided by the stop event as seen
at the manager's check: set (no matter that the process finished on its own)
gives `Cancelled`; unset gives `Completed`.  The cancellation request is a
no-op only when it arrives after both post-exit checks. -/
theorem C5_cancel_after_exit_tiebreak (stdoutJoined stderrText : String)
    (t : TranscriptionTask) (stopAtFinal : Bool) (now : ℕ)
    (hmono : stopAtFinal = true → t.stop_event = true) :
    (finalizeTask t (postExitResult stdoutJoined stderrText 0 stopAtFinal) now).status
      = if t.stop_event then .cancelled else .completed := by
  cases hse : t.stop_event
  · have hsf : stopAtFinal = false := by
      cases hsf : stopAtFinal
      · rfl
      · exfalso
        have h := hmono hsf
        rw [hse] at h
        exact Bool.noConfusion h
    simp [finalizeTask, postExitResult, hse, hsf, TranscriptionTask.complete]
  · simp [finalizeTask, hse]

/-- Witness for C5: with the stop event never raised the same run completes
normally. -/
theorem C5_cancel_after_exit_tiebreak_witness :
    (finalizeTask demoRunningTask (postExitResult "out" "" 0 false) 3).status
      = if demoRunningTask.stop_event then .cancelled else .completed :=
  C5_cancel_after_exit_tiebreak "out" "" demoRunningTask false 3 (by decide)

/-- Claim C3 (counterexample): a task that reached the terminal state
`Cancelled` is moved back to `Running` by a later `start_task` — the
terminal states `Cancelled`/`Failed` are not absorbing in this code, only
`Completed` is. -/
theorem C3_terminal_reentry_cex :
    (runOps (initSupervised "t" "f.wav" [] 0) [.startOp 1, .cancelOp 2]).task.status
      = .cancelled ∧
    (runOps (initSupervised "t" "f.wav" [] 0)
      [.startOp 1, .cancelOp 2, .startOp 3]).task.status = .running := ⟨by decide, by decide⟩

/-- Claim C3 (amended): `Completed` is truly terminal: once a created task
reaches `Completed` under any serialized sequence of registry operations
(start, cancel, supervisor completion/failure), every further sequence of
operations leaves the status `Completed`.  (`Cancelled` and `Failed` are not
absorbing — see the counterexample — since `start_task` only blocks
`RUNNING` and `COMPLETED`.) -/
theorem C3_completed_is_terminal (task_id file_path : String)
    (options : List (String × String)) (now : ℕ) (ops₁ ops₂ : List TaskOp)
    (h : (runOps (initSupervised task_id file_path options now) ops₁).task.status
      = .completed) :
    (runOps (runOps (initSupervised task_id file_path options now) ops₁) ops₂).task.status
      = .completed := by
  have hInv := supInv_run _ ops₁ (supInv_initSupervised task_id file_path options now)
  rw [runOps_completed_eq _ ops₂ hInv h]
  exact h

/-- Witness for C3: a task started and completed normally stays `Completed`
across a later cancel and restart attempt. -/
theorem C3_completed_is_terminal_witness :
    (runOps (runOps (initSupervised "t" "f.wav" [] 0)
        [.startOp 1, .finishOp demoOkResult 2])
      [.cancelOp 3, .startOp 4]).task.status = .completed :=
  C3_completed_is_terminal "t" "f.wav" [] 0 [.startOp 1, .finishOp demoOkResult 2]
    [.cancelOp 3, .startOp 4] (by decide)

theorem filter_ne_key_of_not_mem (l : List (String × TranscriptionTask)) (k : String)
    (h : k ∉ l.map Prod.fst) : l.filter (fun p => p.1 != k) = l := by
  apply List.filter_eq_self.mpr
  intro p hp
  have hne : p.1 ≠ k := fun he => h (he ▸ List.mem_map_of_mem Prod.fst hp)
  simpa using hne

/-- Claim C9: creating one more task (existing input path, fresh id) in a
registry holding exactly `max_tasks` tasks evicts exactly the unique oldest
task by `created_at` and nothing else: the stored list becomes the old list
plus the new entry with the oldest entry removed, the count is back at
`max_tasks`, and `get_task` on the evicted id answers not-found. -/
theorem C9_capacity_eviction (tm : TaskManager) (task_id file_path : String)
    (options : List (String × String)) (now : ℕ) (old : String × TranscriptionTask)
    (hlen : tm.tasks.length = tm.max_tasks)
    (hfresh : lookupOD tm.tasks task_id = none)
    (hnodup : (tm.tasks.map Prod.fst).Nodup)
    (hmem : old ∈ tm.tasks)
    (hmin : ∀ p ∈ tm.tasks, p ≠ old → old.2.created_at < p.2.created_at)
    (hnow : old.2.created_at < now) :
    (tm.create_task true task_id file_path options now).1.tasks
      = (tm.tasks ++ [(task_id, TranscriptionTask.init task_id file_path options now)]).filter
          (fun p => p.1 != old.1) ∧
    (tm.create_task true task_id file_path options now).1.tasks.length = tm.max_tasks ∧
    (tm.create_task true task_id file_path options now).1.get_task old.1 = none := by
  set newT := TranscriptionTask.init task_id file_path options now with hnewT
  set inserted := tm.tasks ++ [(task_id, newT)] with hinsdef
  have hins : insertOD tm.tasks task_id newT = inserted :=
    insertOD_of_fresh _ _ _ (any_eq_false_of_lookup_none _ _ hfresh)
  have hlenins : inserted.length = tm.max_tasks + 1 := by
    rw [hinsdef]
    simp [hlen]
  have hcm : (tm.create_task true task_id file_path options now).1
      = TaskManager.clean_old_tasks { tm with tasks := inserted } := by
    simp only [TaskManager.create_task, Bool.not_true, Bool.false_eq_true, if_false, hins]
  have hperm := sortByTime_perm inserted
  have hpair := sortByTime_pairwise inserted
  have hsortlen : (sortByTime inserted).length = tm.max_tasks + 1 := by
    rw [hperm.length_eq, hlenins]
  obtain ⟨h₀, rest, hseq⟩ : ∃ h₀ rest, sortByTime inserted = h₀ :: rest := by
    cases hs : sortByTime inserted with
    | nil => rw [hs] at hsortlen; simp at hsortlen
    | cons a l => exact ⟨a, l, rfl⟩
  rw [hseq] at hperm hpair
  have hmemins : old ∈ inserted := List.mem_append.mpr (Or.inl hmem)
  have hmin' : ∀ p ∈ inserted, p ≠ old → old.2.created_at < p.2.created_at := by
    intro p hp hne
    rcases List.mem_append.mp hp with hmem2 | hnew2
    · exact hmin p hmem2 hne
    · have hp2 : p = (task_id, newT) := by simpa using hnew2
      subst hp2
      simpa [hnewT, TranscriptionTask.init] using hnow
  have hh0 : h₀ = old := by
    by_contra hne
    have hh0mem : h₀ ∈ inserted := hperm.mem_iff.mp (List.mem_cons_self _ _)
    have hlt : old.2.created_at < h₀.2.created_at := hmin' h₀ hh0mem hne
    have holdmem : old ∈ h₀ :: rest := hperm.mem_iff.mpr hmemins
    rcases List.mem_cons.mp holdmem with he | hrest
    · exact hne he.symm
    · have hle : h₀.2.created_at ≤ old.2.created_at :=
        (List.pairwise_cons.mp hpair).1 old hrest
      omega
  have hnotle : ¬(inserted.length ≤ tm.max_tasks) := by
    rw [hlenins]
    omega
  have htake : (sortByTime inserted).take ((sortByTime inserted).length - tm.max_tasks)
      = [old] := by
    rw [hsortlen, hseq, hh0]
    have h1 : tm.max_tasks + 1 - tm.max_tasks = 1 := by omega
    rw [h1]
    rfl
  have hclean : (TaskManager.clean_old_tasks { tm with tasks := inserted }).tasks
      = inserted.filter (fun p => p.1 != old.1) := by
    simp only [TaskManager.clean_old_tasks]
    rw [if_neg hnotle, htake]
    rfl
  have htasks : (tm.create_task true task_id file_path options now).1.tasks
      = inserted.filter (fun p => p.1 != old.1) := by
    rw [hcm, hclean]
  obtain ⟨l1, l2, hdec⟩ := List.append_of_mem hmem
  have hkeys := hnodup
  rw [hdec] at hkeys
  simp only [List.map_append, List.map_cons] at hkeys
  have hnotl1 : old.1 ∉ l1.map Prod.fst := by
    intro hmem1
    exact (List.nodup_append.mp hkeys).2.2 hmem1 (List.mem_cons_self _ _)
  have hnotl2 : old.1 ∉ l2.map Prod.fst :=
    (List.nodup_cons.mp (List.nodup_append.mp hkeys).2.1).1
  have htid : task_id ≠ old.1 := by
    intro he
    have h := any_eq_false_of_lookup_none tm.tasks task_id hfresh
    have h2 := (List.any_eq_false.mp h) old hmem
    apply h2
    simp [he]
  have hfil : inserted.filter (fun p => p.1 != old.1) = (l1 ++ l2) ++ [(task_id, newT)] := by
    rw [hinsdef, hdec]
    simp only [List.filter_append, List.filter_cons]
    rw [filter_ne_key_of_not_mem l1 old.1 hnotl1, filter_ne_key_of_not_mem l2 old.1 hnotl2]
    simp [htid, List.filter_nil]
  refine ⟨htasks, ?_, ?_⟩
  · rw [htasks, hfil]
    have hlens := hlen
    rw [hdec] at hlens
    simp only [List.length_append, List.length_cons, List.length_nil] at hlens ⊢
    omega
  · show lookupOD (tm.create_task true task_id file_path options now).1.tasks old.1 = none
    rw [htasks]
    simp only [lookupOD, Option.map_eq_none', List.find?_eq_none]
    intro p hp
    have hpred := List.of_mem_filter hp
    simpa using hpred

/-- Witness for C9: a registry of capacity two holding tasks created at
times 1 and 2; creating a third at time 3 evicts the oldest ("a") and keeps
the count at two. -/
theorem C9_capacity_eviction_witness :
    (demoFullTM.create_task true "c" "c.wav" [] 3).1.tasks.length = demoFullTM.max_tasks ∧
    (demoFullTM.create_task true "c" "c.wav" [] 3).1.get_task "a" = none :=
  ⟨(C9_capacity_eviction demoFullTM "c" "c.wav" [] 3 ("a", demoTaskA) (by decide) (by decide)
      (by decide) (by decide) (by decide) (by decide)).2.1,
   (C9_capacity_eviction demoFullTM "c" "c.wav" [] 3 ("a", demoTaskA) (by decide) (by decide)
      (by decide) (by decide) (by decide) (by decide)).2.2⟩
